import Mathlib

/-!
Verification of the entity scripting bridge (`entity_lua.cpp`).

The bridge resolves opaque numeric identifiers into typed views of engine-owned
entities, performs recursive filtered kill/destroy over the attachment graph,
and manages overlay/inventory relationships.  We embed the binding-layer code
shallowly: the entity store is a list of entity records, identifier resolution
is `List.find?`, and each exposed Lua function becomes a Lean function over the
store.  Engine routines that live outside the binding file are modelled from
the design document and marked as such in their doc comments.
-/

namespace Overlunky

/-- An engine entity as seen through the binding layer: the fields of
`Entity`/`Movable` that the exposed functions read or write.  `x`/`y` hold the
absolute position (the engine's `abs_position()`), `vx`/`vy` the absolute
velocity, `cat` the coarse category bitset (`EntityDB::search_flags`),
`etype` the `ENT_TYPE` tag.  `overlay` is the uid of the entity this one is
attached to, `items` the uids in its inventory set. -/
structure Ent where
  uid : Nat
  etype : Nat
  cat : Nat
  flags : Nat
  more_flags : Nat
  x : ℚ
  y : ℚ
  layer : Nat
  vx : ℚ
  vy : ℚ
  overlay : Option Nat
  items : List Nat
  holding_uid : Int
  movable : Bool
deriving Repr, DecidableEq

/-- The engine's entity store: the live entities, looked up by uid. -/
def Store := List Ent

instance : Membership Ent Store := inferInstanceAs (Membership Ent (List Ent))

/-- `get_entity_ptr`: resolve a uid to the live entity, or `none` when the
identifier does not resolve (the C++ returns `nullptr`). -/
def get_entity_ptr (s : Store) (uid : Nat) : Option Ent :=
  List.find? (fun e => e.uid == uid) s

/-- Replace the (first) entity with the given uid by `f` of it; unchanged when
the uid does not resolve.  This models writing through the pointer returned by
`get_entity_ptr`. -/
def updateEnt (s : Store) (uid : Nat) (f : Ent → Ent) : Store :=
  match s with
  | [] => []
  | e :: rest =>
    if e.uid == uid then f e :: rest else e :: updateEnt rest uid f

/-- `get_entity_flags`: returns the entity's `flags`, or the default-initialised
value `{}` (numerically 0) when the uid does not resolve. -/
def get_entity_flags (s : Store) (uid : Nat) : Nat :=
  match get_entity_ptr s uid with
  | some e => e.flags
  | none => 0

/-- `set_entity_flags`: writes `flags` through the resolved pointer; no-op when
the uid does not resolve. -/
def set_entity_flags (s : Store) (uid : Nat) (flags : Nat) : Store :=
  match get_entity_ptr s uid with
  | some _ => updateEnt s uid (fun e => { e with flags := flags })
  | none => s

/-- `get_entity_flags2`: returns `more_flags`, or 0 when the uid does not
resolve. -/
def get_entity_flags2 (s : Store) (uid : Nat) : Nat :=
  match get_entity_ptr s uid with
  | some e => e.more_flags
  | none => 0

/-- `set_entity_flags2`: writes `more_flags`; no-op when the uid does not
resolve. -/
def set_entity_flags2 (s : Store) (uid : Nat) (flags : Nat) : Store :=
  match get_entity_ptr s uid with
  | some _ => updateEnt s uid (fun e => { e with more_flags := flags })
  | none => s

/-- `get_position`: absolute position and layer of the entity, or the
value-initialised tuple `(0, 0, 0)` when the uid does not resolve. -/
def get_position (s : Store) (uid : Nat) : ℚ × ℚ × Nat :=
  match get_entity_ptr s uid with
  | some e => (e.x, e.y, e.layer)
  | none => (0, 0, 0)

/-- `get_velocity`: absolute velocity of the entity, or `(0, 0)` when the uid
does not resolve. -/
def get_velocity (s : Store) (uid : Nat) : ℚ × ℚ :=
  match get_entity_ptr s uid with
  | some e => (e.vx, e.vy)
  | none => (0, 0)

/-- Modelled from the spec: `kill_entity` (declared in `entity_lookup.hpp`, its
body is not under src/).  Resolving an identifier that no longer exists makes
the whole call a benign no-op; otherwise the engine's death routine runs and
the entity is removed from the store. -/
def kill_entity (s : Store) (uid : Nat) (destroy_corpse : Option Bool) : Store :=
  match get_entity_ptr s uid with
  | some _ => List.filter (fun e => e.uid != uid) s
  | none => s

/-- A typed view of an entity as handed back to scripts: either the base
(uncast) entity userdata, or the userdata produced by a registered
type-specific cast function. -/
inductive View where
  | base (e : Ent) : View
  | custom (tag : Nat) (e : Ent) : View
deriving Repr, DecidableEq

/-- The `TYPE_MAP` table: maps an `ENT_TYPE` tag to its registered cast
function, `none` for tags with no specific constructor. -/
def TypeMap := Nat → Option (Ent → View)

/-- `cast_entity` (Lua, registered in this file): `nil` in, `nil` out;
otherwise look the entity's type tag up in `TYPE_MAP` and apply the cast
function when one is registered, falling back to the raw (base) entity. -/
def cast_entity (tm : TypeMap) (entity_raw : Option Ent) : Option View :=
  match entity_raw with
  | none => none
  | some raw =>
    match tm raw.etype with
    | some cast_fun => some (cast_fun raw)
    | none => some (View.base raw)

/-- `get_entity` (Lua, registered in this file): `nil` uid gives `nil`;
an unresolved uid gives `nil`; otherwise the resolved entity is cast. -/
def get_entity (tm : TypeMap) (s : Store) (ent_uid : Option Nat) : Option View :=
  match ent_uid with
  | none => none
  | some uid =>
    match get_entity_ptr s uid with
    | none => none
    | some raw => cast_entity tm (some raw)

/-- The MASK constant table, byte-for-byte as registered. -/
def MASK_PLAYER : Nat := 0x1

def MASK_MOUNT : Nat := 0x2

def MASK_MONSTER : Nat := 0x4

def MASK_ITEM : Nat := 0x8

def MASK_EXPLOSION : Nat := 0x10

def MASK_ROPE : Nat := 0x20

def MASK_FX : Nat := 0x40

def MASK_ACTIVEFLOOR : Nat := 0x80

def MASK_FLOOR : Nat := 0x100

def MASK_DECORATION : Nat := 0x200

def MASK_BG : Nat := 0x400

def MASK_SHADOW : Nat := 0x800

def MASK_LOGICAL : Nat := 0x1000

def MASK_WATER : Nat := 0x2000

def MASK_LAVA : Nat := 0x4000

def MASK_LIQUID : Nat := 0x6000

def MASK_ANY : Nat := 0x0

/-- The fifteen single-category bits of the MASK table, in registration
order from PLAYER to LAVA. -/
def MASK_category_bits : List Nat :=
  [MASK_PLAYER, MASK_MOUNT, MASK_MONSTER, MASK_ITEM, MASK_EXPLOSION,
   MASK_ROPE, MASK_FX, MASK_ACTIVEFLOOR, MASK_FLOOR, MASK_DECORATION,
   MASK_BG, MASK_SHADOW, MASK_LOGICAL, MASK_WATER, MASK_LAVA]

/-- `distance`: the C++ returns the sentinel `-1.0f` when either uid fails to
resolve, and otherwise `sqrt(pow(xa - xb, 2) + pow(ya - yb, 2))` over the two
entities' absolute positions.  The library square-root routine is an external
collaborator, modelled as the parameter `sqrtFn`. -/
def distance (sqrtFn : ℚ → ℚ) (s : Store) (uid_a uid_b : Nat) : ℚ :=
  match get_entity_ptr s uid_a, get_entity_ptr s uid_b with
  | some ea, some eb => sqrtFn ((ea.x - eb.x) ^ 2 + (ea.y - eb.y) ^ 2)
  | some _, none => -1
  | none, _ => -1

/-- The squared Euclidean distance between the absolute positions of two
resolved entities, written from the spec's words for comparison with the
code's formula. -/
def euclidSq (ea eb : Ent) : ℚ :=
  (ea.x - eb.x) ^ 2 + (ea.y - eb.y) ^ 2

/-- The C++ `mov->holding_uid == what_uid` comparison: a signed 32-bit
`holding_uid` against an unsigned 32-bit uid, under the usual arithmetic
conversion to unsigned. -/
def holdingEq (holding : Int) (what : Nat) : Bool :=
  holding % 4294967296 == (what : Int) % 4294967296

/-- `drop`: resolves `who_uid` (no-op when absent or not movable); when
`what_uid` is supplied it must resolve, and the call returns early when the
item's overlay is not the holder AND the holder's `holding_uid` equals
`what_uid`; otherwise the holder's `drop` routine is invoked.  The result is
the uid whose drop routine ran, `none` for a no-op. -/
def drop (s : Store) (who_uid : Nat) (what_uid : Option Nat) : Option Nat :=
  match get_entity_ptr s who_uid with
  | none => none
  | some ent =>
    if !ent.movable then none
    else
      match what_uid with
      | some w =>
        match get_entity_ptr s w with
        | none => none
        | some item =>
          if item.overlay != some who_uid && holdingEq ent.holding_uid w then
            none
          else
            some who_uid
      | none => some who_uid

/-- The `RECURSIVE_MODE` enumeration registered for scripts. -/
inductive RECURSIVE_MODE where
  | EXCLUSIVE : RECURSIVE_MODE
  | INCLUSIVE : RECURSIVE_MODE
  | NONE : RECURSIVE_MODE
deriving Repr, DecidableEq

/-- The attachment tree below a root entity, as walked by the recursive
kill/destroy traversal: a node carries the entity's uid, coarse category
bitset and `ENT_TYPE`, and the subtrees of its attached items. -/
inductive ETree where
  | node (uid : Nat) (cat : Nat) (ty : Nat) (children : List ETree) : ETree

def ETree.uid : ETree → Nat
  | .node u _ _ _ => u

def ETree.cat : ETree → Nat
  | .node _ c _ _ => c

def ETree.ty : ETree → Nat
  | .node _ _ ty _ => ty

def ETree.children : ETree → List ETree
  | .node _ _ _ ch => ch

mutual

/-- All uids reachable from the root (preorder). -/
def ETree.uids : ETree → List Nat
  | .node u _ _ ch => u :: uidsList ch

def uidsList : List ETree → List Nat
  | [] => []
  | t :: ts => t.uids ++ uidsList ts

end

mutual

/-- All subtrees of a tree, the tree itself included. -/
def ETree.subtrees : ETree → List ETree
  | .node u c ty ch => .node u c ty ch :: subtreesList ch

def subtreesList : List ETree → List ETree
  | [] => []
  | t :: ts => t.subtrees ++ subtreesList ts

end

/-- The filter predicate of the traversal: a node qualifies when its coarse
category intersects the supplied mask (a supplied mask of 0 is the wildcard
matching anything), or its exact `ENT_TYPE` is in the type list. -/
def matchesFilter (mask : Option Nat) (types : List Nat) (t : ETree) : Bool :=
  (match mask with
   | some m => m == 0 || t.cat &&& m != 0
   | none => false) || types.contains t.ty

mutual

/-- Exclusive-mode walk: a node that matches the filter is skipped together
with its whole attached subtree; any other node is acted upon and its
attachees are walked. -/
def exclusiveWalk (mask : Option Nat) (types : List Nat) : ETree → List Nat
  | .node u c ty ch =>
    if matchesFilter mask types (.node u c ty ch) then []
    else u :: exclusiveWalkList mask types ch

def exclusiveWalkList (mask : Option Nat) (types : List Nat) : List ETree → List Nat
  | [] => []
  | t :: ts => exclusiveWalk mask types t ++ exclusiveWalkList mask types ts

end

mutual

/-- Inclusive-mode walk: a node is acted upon only when it matches the filter;
descent into attachees happens regardless of whether the node matched. -/
def inclusiveWalk (mask : Option Nat) (types : List Nat) : ETree → List Nat
  | .node u c ty ch =>
    (if matchesFilter mask types (.node u c ty ch) then [u] else []) ++
      inclusiveWalkList mask types ch

def inclusiveWalkList (mask : Option Nat) (types : List Nat) : List ETree → List Nat
  | [] => []
  | t :: ts => inclusiveWalk mask types t ++ inclusiveWalkList mask types ts

end

/-- Modelled from the spec: the traversal shared by `Entity::kill_recursive`
and `Entity::destroy_recursive` (their bodies live in `entity.cpp`, not under
src/).  Starting from the root, a depth-first walk of the attachment tree
evaluates each node against `(mask, type list, RECURSIVE_MODE)`:
`NONE` ignores the filters and acts on everything reachable; `EXCLUSIVE`
protects matching nodes together with their whole subtrees; `INCLUSIVE` acts
only on matching nodes but still descends everywhere, and when neither a mask
nor a type is supplied the whole operation is an explicit guard-driven no-op.
The result is the list of uids acted upon, in traversal order. -/
def recursiveTargets (mask : Option Nat) (types : List Nat)
    (mode : RECURSIVE_MODE) (t : ETree) : List Nat :=
  match mode with
  | .EXCLUSIVE => exclusiveWalk mask types t
  | .INCLUSIVE =>
    if mask.isNone && types.isEmpty then [] else inclusiveWalk mask types t
  | .NONE => t.uids

/-- Modelled from the spec: `Entity::kill_recursive` — the shared traversal
with the engine's kill routine (corpse/drops per `destroy_corpse`) as the
per-node action.  Returns the uids the kill routine is invoked on. -/
def kill_recursive (destroy_corpse : Bool) (responsible : Option Nat)
    (mask : Option Nat) (types : List Nat) (mode : RECURSIVE_MODE)
    (t : ETree) : List Nat :=
  recursiveTargets mask types mode t

/-- Modelled from the spec: `Entity::destroy_recursive` — the shared traversal
with unconditional removal as the per-node action.  Returns the uids the
destroy routine is invoked on. -/
def destroy_recursive (mask : Option Nat) (types : List Nat)
    (mode : RECURSIVE_MODE) (t : ETree) : List Nat :=
  recursiveTargets mask types mode t

/-- Modelled from the spec: `::destroy_grid` (its body lives in `rpc.cpp`, not
under src/).  The sweep that collects the grid entity, its item entities, and
the monsters or items standing on a linked activefloor or chain is abstracted
as the `candidates` list (it may depend on the input uid or position and on
any mask/type filters); the hard-coded safety exception then excludes every
entity in the MASK.PLAYER category before destruction. -/
def destroy_grid (s : Store) (candidates : List Nat) : List Nat :=
  List.filter
    (fun u =>
      match get_entity_ptr s u with
      | some e => e.cat &&& MASK_PLAYER == 0
      | none => false)
    candidates

/-- Modelled from the spec: the uid overload of `::destroy_grid`
(entity_lua.cpp lines 376-381, body in rpc.cpp, not under src/).  The raw
identifier of the grid entity is resolved first; when it does not resolve the
whole call is a benign no-op destroying nothing, otherwise the linked sweep
(abstracted as `candidates`) runs under the hard-coded player exclusion. -/
def destroy_grid_uid (s : Store) (uid : Nat) (candidates : List Nat) : List Nat :=
  match get_entity_ptr s uid with
  | some _ => destroy_grid s candidates
  | none => []

/-- Modelled from the spec: the recursive-kill entry point reached through a
root identifier (spec 4.4: resolving a root that no longer exists makes the
whole call a no-op).  The attachment tree below the resolved root is the
abstract parameter `tree`. -/
def kill_recursive_at (s : Store) (root : Nat) (destroy_corpse : Bool)
    (responsible : Option Nat) (mask : Option Nat) (types : List Nat)
    (mode : RECURSIVE_MODE) (tree : ETree) : List Nat :=
  match get_entity_ptr s root with
  | some _ => kill_recursive destroy_corpse responsible mask types mode tree
  | none => []

/-- Modelled from the spec: the recursive-destroy entry point reached through
a root identifier; an unresolved root makes the whole call a no-op. -/
def destroy_recursive_at (s : Store) (root : Nat) (mask : Option Nat)
    (types : List Nat) (mode : RECURSIVE_MODE) (tree : ETree) : List Nat :=
  match get_entity_ptr s root with
  | some _ => destroy_recursive mask types mode tree
  | none => []

/-- The overlay edge followed by `topmost`: the uid of the entity the given
uid is attached to, `none` when the uid does not resolve or has no overlay. -/
def overlayOf (s : Store) (uid : Nat) : Option Nat :=
  match get_entity_ptr s uid with
  | some e => e.overlay
  | none => none

/-- Bounded walk up the overlay chain: stops at a node with no outgoing edge,
and treats a revisit of an already-seen node as terminal. -/
def topmostAux (s : Store) : Nat → List Nat → Nat → Nat
  | 0, _, cur => cur
  | fuel + 1, visited, cur =>
    if cur ∈ visited then cur
    else
      match overlayOf s cur with
      | none => cur
      | some nxt => topmostAux s fuel (cur :: visited) nxt

/-- Modelled from the spec: `Entity::topmost` (entity.hpp, not under src/):
follows outgoing overlay edges transitively until no further edge exists and
returns that terminal reference; traversal is bounded so that it terminates
even on a malformed (cyclic) graph, a revisit being treated as terminal. -/
def topmost (s : Store) (uid : Nat) : Nat :=
  topmostAux s (s.length + 1) [] uid

/-- `k`-fold application of the overlay edge, `none` as soon as the chain
breaks off. -/
def iterOv (s : Store) : Nat → Nat → Option Nat
  | 0, u => some u
  | k + 1, u =>
    match overlayOf s u with
    | some v => iterOv s k v
    | none => none

/-- A uid lying on an overlay cycle: following the chain returns to it. -/
def Periodic (s : Store) (u : Nat) : Prop :=
  ∃ k, 0 < k ∧ iterOv s k u = some u

/-- The path invariant of `topmostAux`: the visited list (most recent first)
is an overlay chain ending in the current node. -/
def OvChain (s : Store) : List Nat → Nat → Prop
  | [], _ => True
  | v :: vs, cur => overlayOf s v = some cur ∧ OvChain s vs v

/-- Clear the outgoing overlay edge of an entity. -/
def clearOverlay (e : Ent) : Ent := { e with overlay := none }

/-- Remove a uid from an entity's inventory set. -/
def eraseItem (a : Nat) (e : Ent) : Ent := { e with items := e.items.erase a }

/-- Record the new overlay edge and apply the positional offset adjustment
relative to the overlay entity `eb`. -/
def setOverlay (b : Nat) (eb : Ent) (e : Ent) : Ent :=
  { e with overlay := some b, x := e.x - eb.x, y := e.y - eb.y }

/-- Insert a uid into an entity's inventory set. -/
def insertItem (a : Nat) (e : Ent) : Ent := { e with items := a :: e.items }

/-- Modelled from the spec: `Entity::detach` (entity.cpp, not under src/):
removes the attachee's outgoing overlay edge and its membership in the old
overlay's inventory set; a no-op when the attachee does not resolve or has no
overlay. -/
def detach (s : Store) (attachee : Nat) : Store :=
  match get_entity_ptr s attachee with
  | none => s
  | some ea =>
    match ea.overlay with
    | none => s
    | some ov =>
      updateEnt (updateEnt s attachee clearOverlay) ov (eraseItem attachee)

/-- Modelled from the spec: `attach_entity_by_uid` / `Entity::attach`
(entity.cpp, not under src/): when both sides resolve, removes the attachee's
prior outgoing edge, applies the positional offset adjustment (the position
field becomes relative to the overlay), records the new overlay edge and
inserts the attachee into the overlay's inventory set; when either side does
not resolve the whole call fails as a no-op before any edge is changed. -/
def attach_entity (s : Store) (attachee overlay_uid : Nat) : Store :=
  match get_entity_ptr s attachee, get_entity_ptr s overlay_uid with
  | some _, some eb =>
    let s1 := detach s attachee
    let s2 := updateEnt s1 attachee (setOverlay overlay_uid eb)
    updateEnt s2 overlay_uid (insertItem attachee)
  | _, _ => s

/-- A uid is protected by the exclusive-mode walk of `t` when it lies in the
subtree of some node matching the filter (that node itself included). -/
def protectedIn (mask : Option Nat) (types : List Nat) (t : ETree) (u : Nat) : Bool :=
  (ETree.subtrees t).any (fun s => matchesFilter mask types s && decide (u ∈ ETree.uids s))

/-- `protectedIn` over a forest of sibling subtrees. -/
def protectedInList (mask : Option Nat) (types : List Nat) (ts : List ETree) (u : Nat) : Bool :=
  (subtreesList ts).any (fun s => matchesFilter mask types s && decide (u ∈ ETree.uids s))

/-- Tree induction principle for the nested inductive `ETree`. -/
def ETree.inductionOn {motive : ETree → Prop} (t : ETree)
    (node : ∀ u c ty ch, (∀ t' ∈ ch, motive t') → motive (ETree.node u c ty ch)) :
    motive t :=
  match t with
  | .node u c ty ch => node u c ty ch (fun t' ht' => ETree.inductionOn t' node)
termination_by sizeOf t
decreasing_by
  have := List.sizeOf_lt_of_mem ht'
  simp only [ETree.node.sizeOf_spec]
  omega

/-- A concrete `TYPE_MAP` with one registered cast function, for evaluation. -/
def tmEx : TypeMap := fun tag => if tag == 7 then some (fun e => View.custom 7 e) else none

/-- A concrete entity with an unregistered type tag. -/
def entEx : Ent :=
  { uid := 1, etype := 3, cat := 0x4, flags := 5, more_flags := 6, x := 0, y := 0,
    layer := 0, vx := 0, vy := 0, overlay := none, items := [], holding_uid := -1,
    movable := true }

/-- A concrete entity with the registered type tag 7. -/
def entEx7 : Ent :=
  { uid := 2, etype := 7, cat := 0x8, flags := 0, more_flags := 0, x := 3, y := 4,
    layer := 0, vx := 0, vy := 0, overlay := none, items := [], holding_uid := -1,
    movable := false }

/-- A concrete store holding the two example entities. -/
def storeEx : Store := [entEx, entEx7]

/-- A concrete store for the drop example: a movable holder (uid 1) and an
item (uid 2) the holder is not holding. -/
def storeDropEx : Store :=
  [{ uid := 1, etype := 10, cat := 0x1, flags := 0, more_flags := 0, x := 0, y := 0,
     layer := 0, vx := 0, vy := 0, overlay := none, items := [], holding_uid := 9,
     movable := true },
   { uid := 2, etype := 11, cat := 0x8, flags := 0, more_flags := 0, x := 1, y := 1,
     layer := 0, vx := 0, vy := 0, overlay := none, items := [], holding_uid := -1,
     movable := true }]

/-- A concrete store for the grid-destruction example: a floor tile (uid 3)
and a player (uid 4) standing on it. -/
def storeGridEx : Store :=
  [{ uid := 3, etype := 20, cat := 0x100, flags := 0, more_flags := 0, x := 2, y := 2,
     layer := 0, vx := 0, vy := 0, overlay := none, items := [], holding_uid := -1,
     movable := false },
   { uid := 4, etype := 21, cat := 0x1, flags := 0, more_flags := 0, x := 2, y := 3,
     layer := 0, vx := 0, vy := 0, overlay := none, items := [], holding_uid := -1,
     movable := true }]

/-- A concrete unattached attachee for the attach/detach example. -/
def entAttA : Ent :=
  { uid := 1, etype := 10, cat := 0x1, flags := 0, more_flags := 0, x := 5, y := 6,
    layer := 0, vx := 0, vy := 0, overlay := none, items := [], holding_uid := -1,
    movable := true }

/-- A concrete overlay target for the attach/detach example. -/
def entAttB : Ent :=
  { uid := 2, etype := 12, cat := 0x2, flags := 0, more_flags := 0, x := 1, y := 1,
    layer := 0, vx := 0, vy := 0, overlay := none, items := [], holding_uid := -1,
    movable := true }

/-- A concrete store for the attach/detach example: two unattached entities. -/
def storeAttachEx : Store := [entAttA, entAttB]

/-- A concrete attachment tree: root uid 1 (floor category) carrying a
monster (uid 2, category 0x4) which carries uid 3, and an item (uid 4). -/
def treeEx : ETree :=
  ETree.node 1 0x100 50
    [ETree.node 2 0x4 60 [ETree.node 3 0x8 61 []],
     ETree.node 4 0x8 62 []]

/-- C8: the exposed MASK constant table satisfies `LIQUID = WATER ||| LAVA`
(0x6000 = 0x2000 ||| 0x4000) as exact integers, `ANY` is 0, and the fifteen
category bits from PLAYER through LAVA are the distinct powers of two
2^0 .. 2^14, byte-for-byte as registered. -/
theorem mask_table_exact :
    MASK_LIQUID = MASK_WATER ||| MASK_LAVA ∧
    MASK_WATER = 0x2000 ∧ MASK_LAVA = 0x4000 ∧ MASK_LIQUID = 0x6000 ∧
    MASK_ANY = 0 ∧
    MASK_category_bits = (List.range 15).map (fun i => 2 ^ i) ∧
    MASK_category_bits.Pairwise (fun a b => a ≠ b) ∧
    MASK_PLAYER = 0x1 := by
  decide

/-- C5: `cast_entity` dispatch — a `nil` reference gives `nil`; a tag with no
registered constructor in `TYPE_MAP` falls back to the base (uncast) entity
view; a tag with a registered constructor yields exactly the view built by
that constructor applied to the unmodified entity.  Dispatch is a pure
function of the entity: the entity embedded in the returned view is the input
entity itself, unchanged. -/
theorem cast_entity_dispatch (tm : TypeMap) (raw : Ent) :
    cast_entity tm none = none ∧
    (tm raw.etype = none → cast_entity tm (some raw) = some (View.base raw)) ∧
    (∀ f, tm raw.etype = some f → cast_entity tm (some raw) = some (f raw)) := by
  refine ⟨rfl, ?_, ?_⟩
  · intro h
    simp [cast_entity, h]
  · intro f h
    simp [cast_entity, h]

/-- Witness for C5 at a concrete type map and concrete entities: tag 3 has no
constructor and falls back to the base view, tag 7 dispatches to its
registered constructor. -/
theorem cast_entity_dispatch_w :
    cast_entity tmEx (some entEx) = some (View.base entEx) ∧
    cast_entity tmEx (some entEx7) = some (View.custom 7 entEx7) :=
  ⟨(cast_entity_dispatch tmEx entEx).2.1 rfl,
   (cast_entity_dispatch tmEx entEx7).2.2 (fun e => View.custom 7 e) rfl⟩

/-- C4: every exposed operation taking a raw identifier treats an identifier
that does not resolve as a benign no-op or an absence value: `get_entity`
returns `nil`, the flag getters return the default value 0, the flag setters
and `kill_entity` leave the store unchanged, `get_position` and
`get_velocity` return the value-initialised tuples, and the destroy entry
points — the uid overload of `destroy_grid` and the recursive kill/destroy
invoked through a root identifier — destroy nothing, for every candidate
sweep, filter and mode. -/
theorem unresolved_uid_benign (tm : TypeMap) (s : Store) (uid flags : Nat)
    (db : Option Bool) (candidates : List Nat) (dc : Bool)
    (resp mask : Option Nat) (types : List Nat) (mode : RECURSIVE_MODE)
    (tree : ETree) (h : get_entity_ptr s uid = none) :
    get_entity tm s (some uid) = none ∧
    get_entity_flags s uid = 0 ∧
    set_entity_flags s uid flags = s ∧
    get_entity_flags2 s uid = 0 ∧
    set_entity_flags2 s uid flags = s ∧
    get_position s uid = (0, 0, 0) ∧
    get_velocity s uid = (0, 0) ∧
    kill_entity s uid db = s ∧
    destroy_grid_uid s uid candidates = [] ∧
    kill_recursive_at s uid dc resp mask types mode tree = [] ∧
    destroy_recursive_at s uid mask types mode tree = [] := by
  refine ⟨?_, ?_, ?_, ?_, ?_, ?_, ?_, ?_, ?_, ?_, ?_⟩ <;>
    simp [get_entity, get_entity_flags, set_entity_flags, get_entity_flags2,
      set_entity_flags2, get_position, get_velocity, kill_entity,
      destroy_grid_uid, kill_recursive_at, destroy_recursive_at, h]

/-- Witness for C4: uid 5 does not resolve in the concrete store, and every
operation — the accessors, the setters, and the kill/destroy entry points —
is a no-op or absence there. -/
theorem unresolved_uid_benign_w :
    get_entity_ptr storeEx 5 = none ∧
    (get_entity tmEx storeEx (some 5) = none ∧
     get_entity_flags storeEx 5 = 0 ∧
     set_entity_flags storeEx 5 9 = storeEx ∧
     get_entity_flags2 storeEx 5 = 0 ∧
     set_entity_flags2 storeEx 5 9 = storeEx ∧
     get_position storeEx 5 = (0, 0, 0) ∧
     get_velocity storeEx 5 = (0, 0) ∧
     kill_entity storeEx 5 none = storeEx ∧
     destroy_grid_uid storeEx 5 [1, 2] = [] ∧
     kill_recursive_at storeEx 5 true none none [] RECURSIVE_MODE.NONE treeEx = [] ∧
     destroy_recursive_at storeEx 5 none [] RECURSIVE_MODE.NONE treeEx = []) :=
  ⟨rfl, unresolved_uid_benign tmEx storeEx 5 9 none [1, 2] true none none []
    RECURSIVE_MODE.NONE treeEx rfl⟩

/-- C9: `distance` returns the sentinel -1 whenever either identifier fails to
resolve, and otherwise the square-root routine applied to the squared
Euclidean distance between the two entities' absolute positions. -/
theorem distance_sentinel_or_euclid (sqrtFn : ℚ → ℚ) (s : Store) (a b : Nat) :
    ((get_entity_ptr s a = none ∨ get_entity_ptr s b = none) →
      distance sqrtFn s a b = -1) ∧
    (∀ ea eb, get_entity_ptr s a = some ea → get_entity_ptr s b = some eb →
      distance sqrtFn s a b = sqrtFn (euclidSq ea eb)) := by
  constructor
  · rintro (h | h) <;> simp [distance, h] <;>
      cases get_entity_ptr s a <;> simp
  · intro ea eb ha hb
    simp [distance, ha, hb, euclidSq]

/-- Witness for C9: in the concrete store, uids 1 and 2 resolve to entities at
(0,0) and (3,4) and the squared distance 25 reaches the square-root routine;
uid 5 does not resolve and yields the sentinel. -/
theorem distance_sentinel_or_euclid_w :
    get_entity_ptr storeEx 1 = some entEx ∧
    get_entity_ptr storeEx 2 = some entEx7 ∧
    distance id storeEx 1 2 = 25 ∧
    distance id storeEx 1 5 = -1 := by
  refine ⟨rfl, rfl, ?_, ?_⟩
  · have h := (distance_sentinel_or_euclid id storeEx 1 2).2 entEx entEx7 rfl rfl
    rw [h]
    norm_num [euclidSq, entEx, entEx7]
  · exact (distance_sentinel_or_euclid id storeEx 1 5).1 (Or.inr rfl)

/-- C10: with `what_uid` supplied, a resolving movable holder and a resolving
item, the holder's drop routine is invoked exactly unless the item's overlay
is not the holder AND the holder's `holding_uid` equals `what_uid`; in
particular the holder still drops when the item's overlay is not the holder
and `holding_uid` differs from `what_uid`. -/
theorem drop_invocation (s : Store) (who w : Nat) (ent item : Ent)
    (h1 : get_entity_ptr s who = some ent) (h2 : ent.movable = true)
    (h3 : get_entity_ptr s w = some item) :
    (drop s who (some w) = some who ↔
      ¬(item.overlay ≠ some who ∧ holdingEq ent.holding_uid w = true)) ∧
    (item.overlay ≠ some who → holdingEq ent.holding_uid w = false →
      drop s who (some w) = some who) := by
  have hd : drop s who (some w) =
      (if item.overlay != some who && holdingEq ent.holding_uid w then none
       else some who) := by
    simp [drop, h1, h2, h3]
  constructor
  · rw [hd]
    by_cases hov : item.overlay = some who <;>
      by_cases hh : holdingEq ent.holding_uid w = true <;>
        simp [hov, hh]
  · intro hov hh
    rw [hd]
    simp [hov, hh]

/-- Witness for C10: the holder (uid 1, movable, holding_uid 9) drops even
though `what_uid` = 2 names an item whose overlay is not the holder, because
holding_uid 9 ≠ 2. -/
theorem drop_invocation_w :
    drop storeDropEx 1 (some 2) = some 1 := by
  have h := drop_invocation storeDropEx 1 2
    (storeDropEx.get ⟨0, by norm_num [storeDropEx]⟩)
    (storeDropEx.get ⟨1, by norm_num [storeDropEx]⟩) rfl rfl rfl
  exact h.2 (by simp [storeDropEx]) (by simp [storeDropEx, holdingEq])

/-- C2: the grid-destruction sweep never removes an entity in the player
category: whatever candidate list the linked activefloor/chain walk produced
(for any input uid or position and any filters), every destroyed entity's
category bitset is disjoint from MASK.PLAYER. -/
theorem destroy_grid_spares_players (s : Store) (candidates : List Nat)
    (u : Nat) (e : Ent) (hu : u ∈ destroy_grid s candidates)
    (he : get_entity_ptr s u = some e) :
    e.cat &&& MASK_PLAYER = 0 := by
  have := List.of_mem_filter hu
  rw [he] at this
  simpa using this

/-- Witness for C2: sweeping the concrete grid store with both the floor tile
(uid 3) and the player (uid 4) as candidates destroys the tile but the player
is excluded, and the destroyed tile's category is disjoint from MASK.PLAYER. -/
theorem destroy_grid_spares_players_w :
    destroy_grid storeGridEx [3, 4] = [3] ∧
    (storeGridEx.get ⟨0, by norm_num [storeGridEx]⟩).cat &&& MASK_PLAYER = 0 := by
  constructor
  · rfl
  · exact destroy_grid_spares_players storeGridEx [3, 4] 3
      (storeGridEx.get ⟨0, by norm_num [storeGridEx]⟩) (by decide) rfl

theorem uids_node (u c ty : Nat) (ch : List ETree) :
    ETree.uids (ETree.node u c ty ch) = u :: uidsList ch := by
  rw [ETree.uids]

theorem uidsList_nil : uidsList [] = [] := by
  rw [uidsList]

theorem uidsList_cons (t : ETree) (ts : List ETree) :
    uidsList (t :: ts) = t.uids ++ uidsList ts := by
  rw [uidsList]

theorem subtrees_node (u c ty : Nat) (ch : List ETree) :
    ETree.subtrees (ETree.node u c ty ch) =
      ETree.node u c ty ch :: subtreesList ch := by
  rw [ETree.subtrees]

theorem subtreesList_nil : subtreesList [] = [] := by
  rw [subtreesList]

theorem subtreesList_cons (t : ETree) (ts : List ETree) :
    subtreesList (t :: ts) = t.subtrees ++ subtreesList ts := by
  rw [subtreesList]

theorem exclusiveWalk_node (mask : Option Nat) (types : List Nat)
    (u c ty : Nat) (ch : List ETree) :
    exclusiveWalk mask types (ETree.node u c ty ch) =
      if matchesFilter mask types (ETree.node u c ty ch) then []
      else u :: exclusiveWalkList mask types ch := by
  rw [exclusiveWalk]

theorem exclusiveWalkList_nil (mask : Option Nat) (types : List Nat) :
    exclusiveWalkList mask types [] = [] := by
  rw [exclusiveWalkList]

theorem exclusiveWalkList_cons (mask : Option Nat) (types : List Nat)
    (t : ETree) (ts : List ETree) :
    exclusiveWalkList mask types (t :: ts) =
      exclusiveWalk mask types t ++ exclusiveWalkList mask types ts := by
  rw [exclusiveWalkList]

theorem inclusiveWalk_node (mask : Option Nat) (types : List Nat)
    (u c ty : Nat) (ch : List ETree) :
    inclusiveWalk mask types (ETree.node u c ty ch) =
      (if matchesFilter mask types (ETree.node u c ty ch) then [u] else []) ++
        inclusiveWalkList mask types ch := by
  rw [inclusiveWalk]

theorem inclusiveWalkList_nil (mask : Option Nat) (types : List Nat) :
    inclusiveWalkList mask types [] = [] := by
  rw [inclusiveWalkList]

theorem inclusiveWalkList_cons (mask : Option Nat) (types : List Nat)
    (t : ETree) (ts : List ETree) :
    inclusiveWalkList mask types (t :: ts) =
      inclusiveWalk mask types t ++ inclusiveWalkList mask types ts := by
  rw [inclusiveWalkList]

theorem mem_uidsList {v : Nat} {ts : List ETree} :
    v ∈ uidsList ts ↔ ∃ t ∈ ts, v ∈ t.uids := by
  induction ts with
  | nil => simp [uidsList_nil]
  | cons t ts ih => simp [uidsList_cons, ih]

theorem mem_subtreesList {x : ETree} {ts : List ETree} :
    x ∈ subtreesList ts ↔ ∃ t ∈ ts, x ∈ t.subtrees := by
  induction ts with
  | nil => simp [subtreesList_nil]
  | cons t ts ih => simp [subtreesList_cons, ih]

theorem uids_subset_of_mem_subtrees :
    ∀ t : ETree, ∀ x ∈ t.subtrees, ∀ v ∈ x.uids, v ∈ t.uids := by
  intro t
  induction t using ETree.inductionOn with
  | node u c ty ch ih =>
    intro x hx v hv
    rw [subtrees_node] at hx
    rw [uids_node]
    rcases List.mem_cons.1 hx with h | h
    · subst h
      rwa [uids_node] at hv
    · rcases mem_subtreesList.1 h with ⟨t', ht', hx'⟩
      exact List.mem_cons_of_mem _ (mem_uidsList.2 ⟨t', ht', ih t' ht' x hx' v hv⟩)

theorem protectedIn_node (mask : Option Nat) (types : List Nat)
    (u c ty : Nat) (ch : List ETree) (v : Nat) :
    protectedIn mask types (ETree.node u c ty ch) v =
      ((matchesFilter mask types (ETree.node u c ty ch) &&
        decide (v ∈ ETree.uids (ETree.node u c ty ch))) ||
       protectedInList mask types ch v) := by
  rw [protectedIn, protectedInList, subtrees_node, List.any_cons]

theorem protectedInList_nil (mask : Option Nat) (types : List Nat) (v : Nat) :
    protectedInList mask types [] v = false := by
  rw [protectedInList, subtreesList_nil, List.any_nil]

theorem protectedInList_cons (mask : Option Nat) (types : List Nat)
    (t : ETree) (ts : List ETree) (v : Nat) :
    protectedInList mask types (t :: ts) v =
      (protectedIn mask types t v || protectedInList mask types ts v) := by
  rw [protectedInList, protectedInList, protectedIn, subtreesList_cons, List.any_append]

theorem protectedIn_eq_false_of_not_mem {mask : Option Nat} {types : List Nat}
    {t : ETree} {v : Nat} (h : v ∉ t.uids) : protectedIn mask types t v = false := by
  rw [protectedIn, List.any_eq_false]
  intro x hx
  simp only [Bool.and_eq_true, decide_eq_true_eq, not_and]
  intro _ hv
  exact h (uids_subset_of_mem_subtrees t x hx v hv)

theorem protectedInList_eq_false_of_not_mem {mask : Option Nat} {types : List Nat}
    {ts : List ETree} {v : Nat} (h : v ∉ uidsList ts) :
    protectedInList mask types ts v = false := by
  rw [protectedInList, List.any_eq_false]
  intro x hx
  simp only [Bool.and_eq_true, decide_eq_true_eq, not_and]
  intro _ hv
  rcases mem_subtreesList.1 hx with ⟨t, ht, hx'⟩
  exact h (mem_uidsList.2 ⟨t, ht, uids_subset_of_mem_subtrees t x hx' v hv⟩)

theorem exclusiveWalkList_eq_filter (mask : Option Nat) (types : List Nat)
    (ts : List ETree)
    (hA : ∀ t ∈ ts, t.uids.Nodup →
      exclusiveWalk mask types t =
        t.uids.filter (fun v => !protectedIn mask types t v))
    (h : (uidsList ts).Nodup) :
    exclusiveWalkList mask types ts =
      (uidsList ts).filter (fun v => !protectedInList mask types ts v) := by
  induction ts with
  | nil => rw [exclusiveWalkList_nil, uidsList_nil, List.filter_nil]
  | cons t ts ih =>
    rw [uidsList_cons, List.nodup_append] at h
    obtain ⟨hnd_t, hnd_ts, hdisj⟩ := h
    rw [exclusiveWalkList_cons, uidsList_cons, List.filter_append]
    congr 1
    · rw [hA t (List.mem_cons_self _ _) hnd_t]
      apply List.filter_congr
      intro v hv
      rw [protectedInList_cons,
        protectedInList_eq_false_of_not_mem (hdisj hv), Bool.or_false]
    · rw [ih (fun t' ht' => hA t' (List.mem_cons_of_mem _ ht')) hnd_ts]
      apply List.filter_congr
      intro v hv
      have hvnot : v ∉ t.uids := fun hvt => hdisj hvt hv
      rw [protectedInList_cons, protectedIn_eq_false_of_not_mem hvnot,
        Bool.false_or]

theorem exclusiveWalk_eq_filter (mask : Option Nat) (types : List Nat) :
    ∀ t : ETree, t.uids.Nodup →
      exclusiveWalk mask types t =
        t.uids.filter (fun v => !protectedIn mask types t v) := by
  intro t
  induction t using ETree.inductionOn with
  | node u c ty ch ih =>
    intro h
    rw [exclusiveWalk_node]
    by_cases hm : matchesFilter mask types (ETree.node u c ty ch) = true
    · rw [if_pos hm]
      symm
      rw [List.filter_eq_nil_iff]
      intro v hv
      have hp : protectedIn mask types (ETree.node u c ty ch) v = true := by
        rw [protectedIn_node, hm]
        simp [hv]
      simp [hp]
    · rw [if_neg hm]
      rw [Bool.not_eq_true] at hm
      rw [uids_node] at h ⊢
      rw [List.nodup_cons] at h
      obtain ⟨hu, hnd⟩ := h
      have hqu : (!protectedIn mask types (ETree.node u c ty ch) u) = true := by
        rw [protectedIn_node, hm, Bool.false_and, Bool.false_or,
          protectedInList_eq_false_of_not_mem hu]
        rfl
      rw [List.filter_cons, if_pos hqu]
      congr 1
      rw [exclusiveWalkList_eq_filter mask types ch ih hnd]
      apply List.filter_congr
      intro v hv
      rw [protectedIn_node, hm, Bool.false_and, Bool.false_or]

theorem inclusiveWalkList_of_walk_eq_uids (mask : Option Nat) (types : List Nat)
    (ts : List ETree)
    (h : ∀ t ∈ ts, inclusiveWalk mask types t = t.uids) :
    inclusiveWalkList mask types ts = uidsList ts := by
  induction ts with
  | nil => rw [inclusiveWalkList_nil, uidsList_nil]
  | cons t ts ih =>
    rw [inclusiveWalkList_cons, uidsList_cons,
      h t (List.mem_cons_self _ _),
      ih (fun t' ht' => h t' (List.mem_cons_of_mem _ ht'))]

theorem inclusiveWalk_wildcard (types : List Nat) :
    ∀ t : ETree, inclusiveWalk (some 0) types t = t.uids := by
  intro t
  induction t using ETree.inductionOn with
  | node u c ty ch ih =>
    rw [inclusiveWalk_node, uids_node]
    have hm : matchesFilter (some 0) types (ETree.node u c ty ch) = true := by
      simp [matchesFilter]
    rw [if_pos hm, inclusiveWalkList_of_walk_eq_uids (some 0) types ch ih]
    rfl

/-- C3: invoking `kill_recursive` or `destroy_recursive` in INCLUSIVE mode
with no mask supplied and an empty type list acts on zero nodes — a
deliberate guard, not an error and not an accidental empty match: with the
wildcard mask (value 0) supplied instead, the same walk acts on every
reachable node. -/
theorem inclusive_empty_filter_noop (dc : Bool) (resp : Option Nat) (t : ETree) :
    kill_recursive dc resp none [] RECURSIVE_MODE.INCLUSIVE t = [] ∧
    destroy_recursive none [] RECURSIVE_MODE.INCLUSIVE t = [] ∧
    destroy_recursive (some 0) [] RECURSIVE_MODE.INCLUSIVE t = t.uids := by
  refine ⟨rfl, rfl, ?_⟩
  show (if (some (0 : Nat)).isNone && List.isEmpty ([] : List Nat) then []
    else inclusiveWalk (some 0) [] t) = t.uids
  rw [if_neg (by simp)]
  exact inclusiveWalk_wildcard [] t

/-- C1: in EXCLUSIVE mode with a supplied mask, both `kill_recursive` and
`destroy_recursive` act on no node matching the filter and on no member of
the attached subtree of such a node (`protectedIn`), while every other node
reachable from the root is acted upon exactly once. -/
theorem exclusive_mode_protection (dc : Bool) (resp : Option Nat) (m : Nat)
    (types : List Nat) (t : ETree) (h : t.uids.Nodup) :
    kill_recursive dc resp (some m) types RECURSIVE_MODE.EXCLUSIVE t =
      t.uids.filter (fun u => !protectedIn (some m) types t u) ∧
    destroy_recursive (some m) types RECURSIVE_MODE.EXCLUSIVE t =
      t.uids.filter (fun u => !protectedIn (some m) types t u) ∧
    (∀ u, protectedIn (some m) types t u = true →
      u ∉ kill_recursive dc resp (some m) types RECURSIVE_MODE.EXCLUSIVE t) ∧
    (∀ u ∈ t.uids, protectedIn (some m) types t u = false →
      (kill_recursive dc resp (some m) types RECURSIVE_MODE.EXCLUSIVE t).count u = 1) := by
  have hf := exclusiveWalk_eq_filter (some m) types t h
  have hk : kill_recursive dc resp (some m) types RECURSIVE_MODE.EXCLUSIVE t =
      t.uids.filter (fun u => !protectedIn (some m) types t u) := hf
  refine ⟨hk, hf, ?_, ?_⟩
  · intro u hp hmem
    rw [hk, List.mem_filter, hp] at hmem
    simp at hmem
  · intro u hu hp
    rw [hk]
    refine List.count_eq_one_of_mem (h.filter _) ?_
    rw [List.mem_filter, hp]
    exact ⟨hu, rfl⟩

/-- Witness for C1 on the concrete tree: with mask 0x4 (MONSTER) the monster
node 2 matches and is protected together with its attachee 3, while root 1
and item 4 are each acted upon exactly once. -/
theorem exclusive_mode_protection_w :
    (ETree.uids treeEx).Nodup ∧
    protectedIn (some 4) [] treeEx 2 = true ∧
    protectedIn (some 4) [] treeEx 3 = true ∧
    2 ∉ kill_recursive true none (some 4) [] RECURSIVE_MODE.EXCLUSIVE treeEx ∧
    3 ∉ kill_recursive true none (some 4) [] RECURSIVE_MODE.EXCLUSIVE treeEx ∧
    (kill_recursive true none (some 4) [] RECURSIVE_MODE.EXCLUSIVE treeEx).count 1 = 1 ∧
    (kill_recursive true none (some 4) [] RECURSIVE_MODE.EXCLUSIVE treeEx).count 4 = 1 := by
  have hnd : (ETree.uids treeEx).Nodup := by
    simp [treeEx, uids_node, uidsList_cons, uidsList_nil]
  have h := exclusive_mode_protection true none 4 [] treeEx hnd
  have hp2 : protectedIn (some 4) [] treeEx 2 = true := by
    simp [treeEx, protectedIn_node, protectedInList_cons, protectedInList_nil,
      matchesFilter, ETree.cat, ETree.ty, uids_node, uidsList_cons, uidsList_nil]
  have hp3 : protectedIn (some 4) [] treeEx 3 = true := by
    simp [treeEx, protectedIn_node, protectedInList_cons, protectedInList_nil,
      matchesFilter, ETree.cat, ETree.ty, uids_node, uidsList_cons, uidsList_nil]
  have hp1 : protectedIn (some 4) [] treeEx 1 = false := by
    simp only [treeEx, protectedIn_node, protectedInList_cons, protectedInList_nil,
      matchesFilter, ETree.cat, ETree.ty, uids_node, uidsList_cons, uidsList_nil]
    decide
  have hp4 : protectedIn (some 4) [] treeEx 4 = false := by
    simp only [treeEx, protectedIn_node, protectedInList_cons, protectedInList_nil,
      matchesFilter, ETree.cat, ETree.ty, uids_node, uidsList_cons, uidsList_nil]
    decide
  have h1u : (1 : Nat) ∈ ETree.uids treeEx := by
    simp [treeEx, uids_node, uidsList_cons, uidsList_nil]
  have h4u : (4 : Nat) ∈ ETree.uids treeEx := by
    simp [treeEx, uids_node, uidsList_cons, uidsList_nil]
  exact ⟨hnd, hp2, hp3, h.2.2.1 2 hp2, h.2.2.1 3 hp3,
    h.2.2.2 1 h1u hp1, h.2.2.2 4 h4u hp4⟩

theorem topmostAux_succ_mem {s : Store} {fuel : Nat} {visited : List Nat}
    {cur : Nat} (h : cur ∈ visited) :
    topmostAux s (fuel + 1) visited cur = cur := by
  simp [topmostAux, h]

theorem topmostAux_succ_none {s : Store} {fuel : Nat} {visited : List Nat}
    {cur : Nat} (h : cur ∉ visited) (ho : overlayOf s cur = none) :
    topmostAux s (fuel + 1) visited cur = cur := by
  simp [topmostAux, h, ho]

theorem topmostAux_succ_some {s : Store} {fuel : Nat} {visited : List Nat}
    {cur nxt : Nat} (h : cur ∉ visited) (ho : overlayOf s cur = some nxt) :
    topmostAux s (fuel + 1) visited cur = topmostAux s fuel (cur :: visited) nxt := by
  simp [topmostAux, h, ho]

theorem iterOv_succ (s : Store) (k u : Nat) :
    iterOv s (k + 1) u = (overlayOf s u).bind (iterOv s k) := by
  cases h : overlayOf s u <;> simp [iterOv, h]

theorem iterOv_one (s : Store) (u : Nat) : iterOv s 1 u = overlayOf s u := by
  cases h : overlayOf s u <;> simp [iterOv, h]

theorem iterOv_add (s : Store) (a b u : Nat) :
    iterOv s (a + b) u = (iterOv s a u).bind (iterOv s b) := by
  induction a generalizing u with
  | zero => simp [iterOv, Nat.zero_add]
  | succ a ih =>
    have hab : a + 1 + b = (a + b) + 1 := by omega
    rw [hab, iterOv_succ, iterOv_succ]
    cases h : overlayOf s u <;> simp [ih]

theorem resolves_mem_storeUids {s : Store} {v : Nat}
    (h : (get_entity_ptr s v).isSome) : v ∈ List.map Ent.uid s := by
  obtain ⟨e, he⟩ := Option.isSome_iff_exists.1 h
  simp only [get_entity_ptr] at he
  have h1 := List.find?_some he
  have h2 : e ∈ s := List.mem_of_find?_eq_some he
  have h3 : e.uid = v := by simpa using h1
  exact h3 ▸ List.mem_map_of_mem Ent.uid h2

theorem overlay_resolves {s : Store} {v w : Nat} (h : overlayOf s v = some w) :
    v ∈ List.map Ent.uid s := by
  apply resolves_mem_storeUids
  rw [overlayOf] at h
  cases hg : get_entity_ptr s v with
  | none => rw [hg] at h; cases h
  | some e => simp [hg]

theorem ovChain_elem_has_overlay (s : Store) :
    ∀ (vs : List Nat) (cur : Nat), OvChain s vs cur →
      ∀ v ∈ vs, ∃ w, overlayOf s v = some w := by
  intro vs
  induction vs with
  | nil => intro cur _ v hv; cases hv
  | cons w ws ih =>
    intro cur hch v hv
    simp only [OvChain] at hch
    obtain ⟨hov, hch'⟩ := hch
    rcases List.mem_cons.1 hv with rfl | hv'
    · exact ⟨cur, hov⟩
    · exact ih w hch' v hv'

theorem ovChain_iter (s : Store) :
    ∀ (vs : List Nat) (cur : Nat), OvChain s vs cur →
      ∀ x ∈ vs, ∃ k, 0 < k ∧ iterOv s k x = some cur := by
  intro vs
  induction vs with
  | nil => intro cur _ x hx; cases hx
  | cons w ws ih =>
    intro cur hch x hx
    simp only [OvChain] at hch
    obtain ⟨hov, hch'⟩ := hch
    rcases List.mem_cons.1 hx with rfl | hx'
    · exact ⟨1, Nat.one_pos, by rw [iterOv_one, hov]⟩
    · obtain ⟨k, hk, hit⟩ := ih w hch' x hx'
      refine ⟨k + 1, by omega, ?_⟩
      rw [iterOv_add s k 1 x, hit]
      simp [iterOv_one, hov]

theorem ovChain_mem_periodic {s : Store} {vs : List Nat} {cur : Nat}
    (hch : OvChain s vs cur) (hmem : cur ∈ vs) : Periodic s cur :=
  ovChain_iter s vs cur hch cur hmem

theorem nodup_subset_length_le {l l' : List Nat} (h : l.Nodup)
    (hs : ∀ x ∈ l, x ∈ l') : l.length ≤ l'.length :=
  (List.subperm_of_subset h hs).length_le

theorem topmostAux_terminal (s : Store) :
    ∀ (fuel : Nat) (visited : List Nat) (cur : Nat),
      OvChain s visited cur → visited.Nodup →
      s.length + 1 ≤ fuel + visited.length →
      overlayOf s (topmostAux s fuel visited cur) = none ∨
        Periodic s (topmostAux s fuel visited cur) := by
  intro fuel
  induction fuel with
  | zero =>
    intro visited cur hch hnd hlen
    exfalso
    have hsub : ∀ v ∈ visited, v ∈ List.map Ent.uid s := by
      intro v hv
      obtain ⟨w, hw⟩ := ovChain_elem_has_overlay s visited cur hch v hv
      exact overlay_resolves hw
    have h1 := nodup_subset_length_le hnd hsub
    have h2 : (List.map Ent.uid s).length = s.length := List.length_map _ _
    omega
  | succ fuel ih =>
    intro visited cur hch hnd hlen
    by_cases hmem : cur ∈ visited
    · rw [topmostAux_succ_mem hmem]
      exact Or.inr (ovChain_mem_periodic hch hmem)
    · cases hov : overlayOf s cur with
      | none =>
        rw [topmostAux_succ_none hmem hov]
        exact Or.inl hov
      | some nxt =>
        rw [topmostAux_succ_some hmem hov]
        apply ih (cur :: visited) nxt
        · exact ⟨hov, hch⟩
        · exact List.nodup_cons.2 ⟨hmem, hnd⟩
        · simp only [List.length_cons]
          omega

theorem topmost_terminal (s : Store) (u : Nat) :
    overlayOf s (topmost s u) = none ∨ Periodic s (topmost s u) := by
  apply topmostAux_terminal s (s.length + 1) [] u
  · exact trivial
  · exact List.nodup_nil
  · simp

theorem topmost_of_overlay_none {s : Store} {u : Nat}
    (h : overlayOf s u = none) : topmost s u = u := by
  rw [topmost]
  exact topmostAux_succ_none (List.not_mem_nil u) h

theorem topmostAux_orbit (s : Store) (c : Nat → Nat) (k0 : Nat)
    (hstep : ∀ i, i < k0 → overlayOf s (c i) = some (c (i + 1)))
    (hinj : ∀ i j, i < j → j < k0 → c i ≠ c j)
    (hk0 : 0 < k0) (hck : c k0 = c 0) :
    ∀ (d i fuel : Nat), i + d = k0 → d + 1 ≤ fuel →
      topmostAux s fuel ((List.range i).reverse.map c) (c i) = c 0 := by
  intro d
  induction d with
  | zero =>
    intro i fuel hik hf
    have hi : i = k0 := by omega
    subst hi
    cases fuel with
    | zero => omega
    | succ f =>
      have hmem : c i ∈ (List.range i).reverse.map c := by
        rw [hck]
        apply List.mem_map_of_mem c
        rw [List.mem_reverse, List.mem_range]
        exact hk0
      rw [topmostAux_succ_mem hmem, hck]
  | succ d ih =>
    intro i fuel hik hf
    have hi : i < k0 := by omega
    cases fuel with
    | zero => omega
    | succ f =>
      have hnmem : c i ∉ (List.range i).reverse.map c := by
        intro hmem
        rcases List.mem_map.1 hmem with ⟨j, hj, hcj⟩
        have hj' : j < i := by simpa [List.mem_reverse, List.mem_range] using hj
        exact hinj j i hj' hi hcj
      rw [topmostAux_succ_some hnmem (hstep i hi)]
      have hvis : c i :: (List.range i).reverse.map c =
          (List.range (i + 1)).reverse.map c := by
        rw [List.range_succ, List.reverse_append]
        simp
      rw [hvis]
      exact ih (i + 1) f (by omega) (by omega)

/-- The orbit of a uid under the overlay map, defaulting to the start when the
chain has broken off. -/
def orbitAt (s : Store) (u i : Nat) : Nat :=
  (iterOv s i u).getD u

theorem topmost_of_periodic {s : Store} {u : Nat} (h : Periodic s u) :
    topmost s u = u := by
  have h' : ∃ k, 0 < k ∧ iterOv s k u = some u := h
  obtain ⟨hpos, hiter⟩ := Nat.find_spec h'
  set k0 := Nat.find h' with hk0def
  set c : Nat → Nat := orbitAt s u with hcdef
  have hsome : ∀ i, i ≤ k0 → iterOv s i u = some (c i) := by
    intro i hi
    have hs : (iterOv s i u).isSome = true := by
      by_contra hns
      have hnone : iterOv s i u = none := by
        cases hx : iterOv s i u
        · rfl
        · rw [hx] at hns; simp at hns
      have hsplit : k0 = i + (k0 - i) := by omega
      rw [hsplit, iterOv_add, hnone] at hiter
      simp at hiter
    obtain ⟨w, hw⟩ := Option.isSome_iff_exists.1 hs
    rw [hw, hcdef]
    simp [orbitAt, hw]
  have hc0 : c 0 = u := by
    rw [hcdef]
    simp [orbitAt, iterOv]
  have hck : c k0 = u := by
    have hx := hsome k0 le_rfl
    rw [hiter] at hx
    exact (Option.some.inj hx).symm
  have hstep : ∀ i, i < k0 → overlayOf s (c i) = some (c (i + 1)) := by
    intro i hi
    have h1 := hsome i (by omega)
    have h2 := hsome (i + 1) (by omega)
    rw [iterOv_add s i 1 u, h1] at h2
    simpa [iterOv_one] using h2
  have hmin : ∀ j, 0 < j → j < k0 → iterOv s j u ≠ some u := by
    intro j hj hjk hcon
    exact Nat.find_min h' hjk ⟨hj, hcon⟩
  have hinj : ∀ i j, i < j → j < k0 → c i ≠ c j := by
    intro i j hij hjk heq
    have h1 := hsome i (by omega)
    have h2 := hsome j (by omega)
    have hm : iterOv s (i + (k0 - j)) u = some u := by
      rw [iterOv_add, h1]
      have h3 : iterOv s (j + (k0 - j)) u = some u := by
        have he : j + (k0 - j) = k0 := by omega
        rw [he]
        exact hiter
      rw [iterOv_add, h2] at h3
      simp only [Option.some_bind] at h3 ⊢
      rw [heq]
      exact h3
    exact hmin (i + (k0 - j)) (by omega) (by omega) hm
  have hbound : k0 ≤ s.length := by
    have hnd : ((List.range k0).map c).Nodup := by
      apply List.Nodup.map_on ?_ (List.nodup_range k0)
      intro x hx y hy hxy
      have hx' : x < k0 := List.mem_range.1 hx
      have hy' : y < k0 := List.mem_range.1 hy
      rcases Nat.lt_trichotomy x y with hlt | heq | hgt
      · exact absurd hxy (hinj x y hlt hy')
      · exact heq
      · exact absurd hxy.symm (hinj y x hgt hx')
    have hsub : ∀ v ∈ (List.range k0).map c, v ∈ List.map Ent.uid s := by
      intro v hv
      rcases List.mem_map.1 hv with ⟨i, hi, rfl⟩
      exact overlay_resolves (hstep i (List.mem_range.1 hi))
    have hl := nodup_subset_length_le hnd hsub
    simpa [List.length_map, List.length_range] using hl
  have hrun := topmostAux_orbit s c k0 hstep hinj hpos (by rw [hck, hc0])
    k0 0 (s.length + 1) (by omega) (by omega)
  rw [topmost]
  simpa [hc0] using hrun

/-- C6: `topmost` is idempotent — `topmost (topmost e)` equals `topmost e`
for every store, including malformed (cyclic) overlay graphs, on which the
bounded traversal still terminates (it is a total function) treating a
revisit as terminal. -/
theorem topmost_idempotent (s : Store) (e : Nat) :
    topmost s (topmost s e) = topmost s e := by
  rcases topmost_terminal s e with h | h
  · exact topmost_of_overlay_none h
  · exact topmost_of_periodic h

theorem clearOverlay_uid (e : Ent) : (clearOverlay e).uid = e.uid := rfl

theorem eraseItem_uid (a : Nat) (e : Ent) : (eraseItem a e).uid = e.uid := rfl

theorem setOverlay_uid (b : Nat) (eb e : Ent) : (setOverlay b eb e).uid = e.uid := rfl

theorem insertItem_uid (a : Nat) (e : Ent) : (insertItem a e).uid = e.uid := rfl

theorem get_updateEnt_self (s : Store) (u : Nat) (f : Ent → Ent)
    (hf : ∀ e, (f e).uid = e.uid) :
    get_entity_ptr (updateEnt s u f) u = (get_entity_ptr s u).map f := by
  induction s with
  | nil => rfl
  | cons e rest ih =>
    simp only [get_entity_ptr] at ih
    by_cases h : (e.uid == u) = true
    · simp [updateEnt, get_entity_ptr, List.find?_cons, hf, h]
    · simp [updateEnt, get_entity_ptr, List.find?_cons, h, ih]

theorem get_updateEnt_ne (s : Store) (u : Nat) (f : Ent → Ent)
    (hf : ∀ e, (f e).uid = e.uid) (v : Nat) (hne : v ≠ u) :
    get_entity_ptr (updateEnt s u f) v = get_entity_ptr s v := by
  induction s with
  | nil => rfl
  | cons e rest ih =>
    simp only [get_entity_ptr] at ih
    by_cases h : (e.uid == u) = true
    · have hu : e.uid = u := by simpa using h
      have hv : (e.uid == v) = false := by
        simp only [hu, beq_eq_false_iff_ne]
        exact fun hh => hne hh.symm
      simp [updateEnt, get_entity_ptr, List.find?_cons, h, hv, hf]
    · by_cases h2 : (e.uid == v) = true
      · simp [updateEnt, get_entity_ptr, List.find?_cons, h, h2]
      · simp [updateEnt, get_entity_ptr, List.find?_cons, h, h2, ih]

/-- C7: for valid distinct `a`, `b` (both resolving, no pre-existing
self-cycle, well-formed inventory), `attach_entity a b` records `b` as `a`'s
overlay, applies the positional offset adjustment (`a`'s position becomes its
old position minus `b`'s), and inserts `a` into `b`'s inventory set; the
immediately following `detach a` restores `a` to having no overlay and
removes `a` from `b`'s inventory set. -/
theorem attach_detach_roundtrip (s : Store) (a b : Nat) (ea eb : Ent)
    (hna : get_entity_ptr s a = some ea) (hnb : get_entity_ptr s b = some eb)
    (hab : a ≠ b) (hcyc : ea.overlay ≠ some a) (hnd : eb.items.Nodup)
    (hinv : a ∈ eb.items → ea.overlay = some b) :
    overlayOf (attach_entity s a b) a = some b ∧
    (∀ ea', get_entity_ptr (attach_entity s a b) a = some ea' →
      ea'.x = ea.x - eb.x ∧ ea'.y = ea.y - eb.y) ∧
    (∀ eb', get_entity_ptr (attach_entity s a b) b = some eb' → a ∈ eb'.items) ∧
    overlayOf (detach (attach_entity s a b) a) a = none ∧
    (∀ eb', get_entity_ptr (detach (attach_entity s a b) a) b = some eb' →
      a ∉ eb'.items) := by
  have hs1 : ∃ ea1 eb1,
      get_entity_ptr (detach s a) a = some ea1 ∧
      get_entity_ptr (detach s a) b = some eb1 ∧
      ea1.x = ea.x ∧ ea1.y = ea.y ∧
      a ∉ eb1.items := by
    cases hov : ea.overlay with
    | none =>
      have hd0 : detach s a = s := by
        simp only [detach, hna, hov]
      refine ⟨ea, eb, ?_, ?_, rfl, rfl, ?_⟩
      · rw [hd0]
        exact hna
      · rw [hd0]
        exact hnb
      · intro hmem
        have hx := hinv hmem
        rw [hov] at hx
        exact Option.noConfusion hx
    | some c =>
      have hca : a ≠ c := fun hc => hcyc (by rw [hov, hc])
      have hd1 : detach s a = updateEnt (updateEnt s a clearOverlay) c (eraseItem a) := by
        simp only [detach, hna, hov]
      by_cases hcb : c = b
      · subst hcb
        refine ⟨clearOverlay ea, eraseItem a eb, ?_, ?_, rfl, rfl, ?_⟩
        · rw [hd1, get_updateEnt_ne _ _ _ (eraseItem_uid a) a hca,
            get_updateEnt_self _ _ _ clearOverlay_uid, hna]
          rfl
        · rw [hd1, get_updateEnt_self _ _ _ (eraseItem_uid a),
            get_updateEnt_ne _ _ _ clearOverlay_uid c (Ne.symm hca), hnb]
          rfl
        · show a ∉ (eraseItem a eb).items
          simp only [eraseItem]
          exact hnd.not_mem_erase
      · refine ⟨clearOverlay ea, eb, ?_, ?_, rfl, rfl, ?_⟩
        · rw [hd1, get_updateEnt_ne _ _ _ (eraseItem_uid a) a hca,
            get_updateEnt_self _ _ _ clearOverlay_uid, hna]
          rfl
        · rw [hd1, get_updateEnt_ne _ _ _ (eraseItem_uid a) b (fun hh => hcb hh.symm),
            get_updateEnt_ne _ _ _ clearOverlay_uid b (Ne.symm hab)]
          exact hnb
        · intro hmem
          have hx := hinv hmem
          rw [hov] at hx
          exact hcb (Option.some.inj hx)
  obtain ⟨ea1, eb1, h1a, h1b, h1x, h1y, h1mem⟩ := hs1
  have hatt : attach_entity s a b =
      updateEnt (updateEnt (detach s a) a (setOverlay b eb)) b (insertItem a) := by
    simp only [attach_entity, hna, hnb]
  have hga : get_entity_ptr (attach_entity s a b) a = some (setOverlay b eb ea1) := by
    rw [hatt, get_updateEnt_ne _ _ _ (insertItem_uid a) a hab,
      get_updateEnt_self _ _ _ (setOverlay_uid b eb), h1a]
    rfl
  have hgb : get_entity_ptr (attach_entity s a b) b = some (insertItem a eb1) := by
    rw [hatt, get_updateEnt_self _ _ _ (insertItem_uid a),
      get_updateEnt_ne _ _ _ (setOverlay_uid b eb) b (Ne.symm hab), h1b]
    rfl
  have hdet : detach (attach_entity s a b) a =
      updateEnt (updateEnt (attach_entity s a b) a clearOverlay) b (eraseItem a) := by
    simp only [detach, hga, setOverlay]
  have hg2a : get_entity_ptr (detach (attach_entity s a b) a) a =
      some (clearOverlay (setOverlay b eb ea1)) := by
    rw [hdet, get_updateEnt_ne _ _ _ (eraseItem_uid a) a hab,
      get_updateEnt_self _ _ _ clearOverlay_uid, hga]
    rfl
  have hg2b : get_entity_ptr (detach (attach_entity s a b) a) b =
      some (eraseItem a (insertItem a eb1)) := by
    rw [hdet, get_updateEnt_self _ _ _ (eraseItem_uid a),
      get_updateEnt_ne _ _ _ clearOverlay_uid b (Ne.symm hab), hgb]
    rfl
  refine ⟨?_, ?_, ?_, ?_, ?_⟩
  · simp only [overlayOf, hga, setOverlay]
  · intro ea' h
    rw [hga] at h
    obtain rfl := Option.some.inj h
    exact ⟨by simp only [setOverlay]; rw [h1x], by simp only [setOverlay]; rw [h1y]⟩
  · intro eb' h
    rw [hgb] at h
    obtain rfl := Option.some.inj h
    simp [insertItem]
  · simp only [overlayOf, hg2a, clearOverlay]
  · intro eb' h
    rw [hg2b] at h
    obtain rfl := Option.some.inj h
    show a ∉ (eraseItem a (insertItem a eb1)).items
    simp only [eraseItem, insertItem, List.erase_cons_head]
    exact h1mem

/-- Witness for C7: attaching entity 1 to entity 2 in the concrete store sets
the overlay and offset position and inserts 1 into 2's inventory; detaching 1
restores no overlay and removes 1 from 2's inventory. -/
theorem attach_detach_roundtrip_w :
    overlayOf (attach_entity storeAttachEx 1 2) 1 = some 2 ∧
    (∀ ea', get_entity_ptr (attach_entity storeAttachEx 1 2) 1 = some ea' →
      ea'.x = entAttA.x - entAttB.x ∧ ea'.y = entAttA.y - entAttB.y) ∧
    (∀ eb', get_entity_ptr (attach_entity storeAttachEx 1 2) 2 = some eb' →
      1 ∈ eb'.items) ∧
    overlayOf (detach (attach_entity storeAttachEx 1 2) 1) 1 = none ∧
    (∀ eb', get_entity_ptr (detach (attach_entity storeAttachEx 1 2) 1) 2 = some eb' →
      1 ∉ eb'.items) :=
  attach_detach_roundtrip storeAttachEx 1 2 entAttA entAttB rfl rfl
    (by decide) (by simp [entAttA]) (by simp [entAttB])
    (by intro h; simp [entAttB] at h)

end Overlunky
